import Mathlib

/-
Shallow embedding of the bananabot request-admission and batch-coordination
core, translated from the Python sources:

  * `bot/utils/rate_limiter.py`   — `RateLimitInfo`, `RateLimiter`
  * `bot/services/batch_client_v2.py` — `GeminiBatchProcessor`
  * `bot/services/gemini_client.py`   — `GeminiImageClient`

Time is modelled by integers (one abstract unit); `datetime.utcnow()` values
become explicit `now` parameters, `timedelta(hours = h)` becomes the integer
duration `h`.  External calls (the Gemini API, the executor dispatch) become
oracle functions supplied as parameters, successful calls as `.ok`, raised
exceptions as `.error`.
-/

namespace BananaBot

namespace RateLimit

/-- The `requests` timestamp list of a `RateLimitInfo` object. -/
abbrev Window := List Int

/-- The list comprehension `[t for t in self.requests if t > cutoff]` used by
`is_limited` and `_cleanup_old_users`. -/
def prune (cutoff : Int) (reqs : Window) : Window :=
  reqs.filter (fun t => decide (cutoff < t))

/-- Embeds `RateLimitInfo.is_limited` (rate_limiter.py lines 26-39): prunes entries at
cutoff `now - window` as a side effect and compares the remaining count with
`max_requests`.  Returns the answer together with the mutated list. -/
def isLimited (maxRequests : Nat) (w : Int) (now : Int) (reqs : Window) :
    Bool × Window :=
  let pruned := prune (now - w) reqs
  (decide (maxRequests ≤ pruned.length), pruned)

/-- Embeds `RateLimitInfo.add_request` (lines 41-43): append the current time. -/
def addRequest (now : Int) (reqs : Window) : Window :=
  reqs ++ [now]

/-- The Python expression `min(self.requests)` over a nonempty list. -/
def minOf (t : Int) (ts : List Int) : Int :=
  ts.foldl min t

/-- Embeds `RateLimitInfo.time_until_reset` (lines 45-62): `None` on an empty list;
otherwise the distance from `now` to `min(requests) + window` when that instant
is still in the future, `None` otherwise.  Note the minimum ranges over the
whole stored list, aged entries included. -/
def timeUntilReset (w : Int) (now : Int) (reqs : Window) : Option Int :=
  match reqs with
  | [] => none
  | t :: ts =>
    let resetTime := minOf t ts + w
    if now < resetTime then some (resetTime - now) else none

/-- Embeds `RateLimiter.check_user` (lines 91-124), single-user view: under the user's
lock, `is_limited` then — only if not limited — `add_request`.  Returns the
admission answer and the new timestamp list. -/
def checkUser (maxRequests : Nat) (w : Int) (now : Int) (reqs : Window) :
    Bool × Window :=
  let res := isLimited maxRequests w now reqs
  if res.1 then (false, res.2) else (true, addRequest now res.2)

/-- Consecutive `check_user` calls at the given instants, collecting the
returned booleans and threading the stored timestamp list. -/
def runChecks (maxRequests : Nat) (w : Int) :
    List Int → Window → List Bool × Window
  | [], reqs => ([], reqs)
  | t :: ts, reqs =>
    let r := checkUser maxRequests w t reqs
    let rest := runChecks maxRequests w ts r.2
    (r.1 :: rest.1, rest.2)

/-- The dictionary built by `RateLimiter.get_user_status` (lines 126-155). -/
structure UserStatus where
  limited : Bool
  requestsUsed : Nat
  requestsRemaining : Int
  resetTime : Option Int
deriving Repr, DecidableEq

/-- Embeds `RateLimiter.get_user_status` for a tracked user: under the lock,
`is_limited` (which prunes), then the status record with
`max(0, max_requests - requests_used)` remaining.  Returns the record and the
mutated list. -/
def getUserStatus (maxRequests : Nat) (w : Int) (now : Int) (reqs : Window) :
    UserStatus × Window :=
  let res := isLimited maxRequests w now reqs
  ({ limited := res.1
     requestsUsed := res.2.length
     requestsRemaining := max 0 ((maxRequests : Int) - res.2.length)
     resetTime := timeUntilReset w now res.2 }, res.2)

/-- One user's slice of `RateLimiter._cleanup_old_users` (lines 186-207):
requests are pruned at cutoff `now - 2 * window`; the user is marked for
removal (`none`) exactly when the pruned list is empty. -/
def cleanupUser (w : Int) (now : Int) (reqs : Window) : Option Window :=
  let pruned := prune (now - w * 2) reqs
  if pruned.isEmpty then none else some pruned

/-- Claim-side notion (from the spec's words, for comparison): the user's
rolling window holds no timestamp at query time `t`. -/
def windowEmptyAt (w : Int) (reqs : Window) (t : Int) : Prop :=
  prune (t - w) reqs = []

instance (w : Int) (reqs : Window) (t : Int) :
    Decidable (windowEmptyAt w reqs t) := by
  unfold windowEmptyAt
  infer_instance

/-- Claim-side notion (from the spec's words, for comparison): at sweep time
`now` the window has been continuously empty for more than duration `d`. -/
def emptyForMoreThan (w : Int) (reqs : Window) (now : Int) (d : Int) : Prop :=
  ∃ e, d < e ∧ ∀ t, now - e ≤ t → t ≤ now → windowEmptyAt w reqs t

/-- The rate-limiter operations a single user's state is subjected to, each
stamped with the wall-clock instant at which it runs. -/
inductive Op
  | check (t : Int)
  | status (t : Int)
  | reset (t : Int)
  | cleanup (t : Int)
deriving Repr, DecidableEq

/-- The instant at which an operation runs. -/
def Op.time : Op → Int
  | .check t => t
  | .status t => t
  | .reset t => t
  | .cleanup t => t

/-- Effect of one operation on the stored timestamp list.  `reset_user` clears
the list; a sweep that removes the user leaves the (re-creatable) state empty,
which coincides with the pruned list in that case. -/
def applyOp (maxRequests : Nat) (w : Int) (reqs : Window) : Op → Window
  | .check t => (checkUser maxRequests w t reqs).2
  | .status t => (getUserStatus maxRequests w t reqs).2
  | .reset _ => []
  | .cleanup t => prune (t - w * 2) reqs

/-- Run a sequence of operations from the empty initial state. -/
def runOps (maxRequests : Nat) (w : Int) (ops : List Op) : Window :=
  ops.foldl (applyOp maxRequests w) []

/-- A sequence of operations whose wall-clock instants never decrease. -/
def MonoTimes (ops : List Op) : Prop :=
  List.Chain' (· ≤ ·) (ops.map Op.time)

end RateLimit

namespace Gemini

/-- The exceptions raised by `_generate_sync` / `_edit_sync` in
gemini_client.py: `ContentFilterError` or `GeminiAPIError` (any other
exception is wrapped into the latter before leaving those functions). -/
inductive GenErr
  | contentFilter (msg : String)
  | api (msg : String)
deriving Repr, DecidableEq

/-- Observable outcome of one `generate_image`/`edit_image` call: the returned
bytes or the raised exception, the number of attempts actually made, and the
backoff sleeps (`2 ** attempt` seconds) performed between attempts. -/
structure RunTrace where
  result : Except GenErr String
  attempts : Nat
  sleeps : List Nat
deriving Repr

/-- The retry loop of `GeminiImageClient.generate_image` (gemini_client.py
lines 43-87), from attempt index `a`; `oracle a` is the outcome of the `a`-th
underlying `_generate_sync` call.  A success returns immediately; a
`ContentFilterError` is re-raised without retrying; any other exception is
wrapped and re-raised on the last attempt and otherwise followed by a
`2 ** attempt` sleep and a retry.  The fallthrough after the loop (reached
only when `retry_count` is 0) raises the wrapped error with no cause. -/
def generateGo (oracle : Nat → Except GenErr String) (retryCount : Nat)
    (a : Nat) : RunTrace :=
  if _h : a < retryCount then
    match oracle a with
    | .ok img => { result := .ok img, attempts := a + 1, sleeps := [] }
    | .error (.contentFilter m) =>
        { result := .error (.contentFilter m), attempts := a + 1, sleeps := [] }
    | .error (.api m) =>
        if a = retryCount - 1 then
          { result := .error (.api ("Failed to generate image after " ++
              toString retryCount ++ " attempts: " ++ m))
            attempts := a + 1, sleeps := [] }
        else
          let r := generateGo oracle retryCount (a + 1)
          { result := r.result, attempts := r.attempts, sleeps := 2 ^ a :: r.sleeps }
  else
    { result := .error (.api ("Failed to generate image after " ++
        toString retryCount ++ " attempts"))
      attempts := a, sleeps := [] }
termination_by retryCount - a

/-- Embeds `GeminiImageClient.generate_image`. -/
def generateImage (oracle : Nat → Except GenErr String) (retryCount : Nat) :
    RunTrace :=
  generateGo oracle retryCount 0

/-- The retry loop of `GeminiImageClient.edit_image` (gemini_client.py lines
164-210); identical control flow to `generateGo`, with the edit error
messages.  `oracle a` is the outcome of the `a`-th `_edit_sync` call (the
prompt and source image are baked into the oracle). -/
def editGo (oracle : Nat → Except GenErr String) (retryCount : Nat)
    (a : Nat) : RunTrace :=
  if _h : a < retryCount then
    match oracle a with
    | .ok img => { result := .ok img, attempts := a + 1, sleeps := [] }
    | .error (.contentFilter m) =>
        { result := .error (.contentFilter m), attempts := a + 1, sleeps := [] }
    | .error (.api m) =>
        if a = retryCount - 1 then
          { result := .error (.api ("Failed to edit image after " ++
              toString retryCount ++ " attempts: " ++ m))
            attempts := a + 1, sleeps := [] }
        else
          let r := editGo oracle retryCount (a + 1)
          { result := r.result, attempts := r.attempts, sleeps := 2 ^ a :: r.sleeps }
  else
    { result := .error (.api ("Failed to edit image after " ++
        toString retryCount ++ " attempts"))
      attempts := a, sleeps := [] }
termination_by retryCount - a

/-- Embeds `GeminiImageClient.edit_image`. -/
def editImage (oracle : Nat → Except GenErr String) (retryCount : Nat) :
    RunTrace :=
  editGo oracle retryCount 0

end Gemini

namespace Batch

/-- Python exception values crossing the batch-processor boundary:
`GeminiAPIError`, `ContentFilterError` or `ValueError`, each with its
message. -/
inductive PyErr
  | gemini (msg : String)
  | contentFilter (msg : String)
  | valueErr (msg : String)
deriving Repr, DecidableEq

/-- What `str(e)` yields on each exception. -/
def PyErr.msg : PyErr → String
  | .gemini m => m
  | .contentFilter m => m
  | .valueErr m => m

/-- True exactly for the `GeminiAPIError` exception class. -/
def PyErr.isGemini : PyErr → Bool
  | .gemini _ => true
  | _ => false

/-- Environment of external effects for one `process_batch` run.  `.ok` models
a normal return, `.error` a raised exception. -/
structure Env where
  /-- outcome of `client.batches.create` in `_sync_submit_batch`
  (the job name on success). -/
  createBatch : Except String String
  /-- the `int(datetime.utcnow().timestamp())` used in the fallback job name. -/
  fallbackTs : Nat
  /-- per poll iteration: `some e` when the `run_in_executor` dispatch in
  `check_batch_status` itself raises `e`. -/
  dispatch : Nat → Option String
  /-- per poll iteration: outcome of `genai.get_batch` in `_sync_check_status`
  (the state name on success; `"UNKNOWN"` models a missing `state` attribute). -/
  getBatch : Nat → Except String String
  /-- per simulated item index: outcome of `_generate_single_image`
  (the image bytes on success). -/
  gen : Nat → Except String String

/-- The dictionary returned by `check_batch_status` / `_sync_check_status`
(only the keys the callers read). -/
structure StatusDict where
  status : String
  error : Option String
deriving Repr, DecidableEq

/-- Python's `s.startswith(pre)`, computed on the underlying character
lists. -/
def pyStartsWith (s pre : String) : Bool :=
  pre.data.isPrefixOf s.data

/-- Embeds `GeminiBatchProcessor._sync_check_status` (batch_client_v2.py lines
124-142) at the `k`-th poll: fallback job ids report `COMPLETED` outright; a
real lookup passes the external state name through; a raised lookup is caught
and optimistically reported as `COMPLETED`. -/
def syncCheckStatus (env : Env) (jobId : String) (k : Nat) : StatusDict :=
  if pyStartsWith jobId "fallback_batch_" then
    { status := "COMPLETED", error := none }
  else
    match env.getBatch k with
    | .ok stateName => { status := stateName, error := none }
    | .error _ => { status := "COMPLETED", error := none }

/-- Embeds `GeminiBatchProcessor.check_batch_status` (lines 112-122) at the
`k`-th poll: an exception from dispatching the lookup yields the
`{"status": "FAILED", "error": str(e)}` dictionary; otherwise the inner
result is returned unchanged. -/
def checkBatchStatus (env : Env) (jobId : String) (k : Nat) : StatusDict :=
  match env.dispatch k with
  | some e => { status := "FAILED", error := some e }
  | none => syncCheckStatus env jobId k

/-- The mock job name built by `_fallback_batch_processing` (lines 103-110). -/
def fallbackJobName (batchId : String) (ts : Nat) : String :=
  "fallback_batch_" ++ batchId ++ "_" ++ toString ts

/-- Embeds `GeminiBatchProcessor._sync_submit_batch` (lines 83-101): a
successful `batches.create` returns the real job, any exception falls back to
the mock job.  Either way a job name is produced — this function never
raises. -/
def syncSubmitBatch (env : Env) (batchId : String) : String :=
  match env.createBatch with
  | .ok name => name
  | .error _ => fallbackJobName batchId env.fallbackTs

/-- Embeds `GeminiBatchProcessor.submit_batch_job` (lines 44-81): size
validation raising `ValueError`, then submission (whose internal fallback
means the `GeminiAPIError` wrapping branch is not reached via
`_sync_submit_batch`). -/
def submitBatchJob (env : Env) (prompts : List String) (batchId : String) :
    Except PyErr String :=
  if prompts.length < 1 then
    .error (.valueErr "Batch must have at least 1 prompts")
  else if prompts.length > 100 then
    .error (.valueErr "Batch cannot exceed 100 prompts")
  else
    .ok (syncSubmitBatch env batchId)

/-- One item of the list built by `_simulate_batch_results` (lines 172-198);
`FAILED` items carry only `request_id`, `status` and `error`. -/
structure ItemResult where
  requestId : String
  status : String
  imageData : Option String
  prompt : Option String
  error : Option String
deriving Repr, DecidableEq

/-- Embeds `GeminiBatchProcessor._simulate_batch_results`: always three items,
generated from the synthetic prompts `"Batch generated image {i+1}"`; a raised
generation becomes a `FAILED` item in place. -/
def simulateBatchResults (env : Env) (jobId : String) : List ItemResult :=
  (List.range 3).map fun i =>
    match env.gen i with
    | .ok img =>
        { requestId := jobId ++ "_" ++ toString i
          status := "SUCCESS"
          imageData := some img
          prompt := some ("Batch generated image " ++ toString (i + 1))
          error := none }
    | .error e =>
        { requestId := jobId ++ "_" ++ toString i
          status := "FAILED"
          imageData := none
          prompt := none
          error := some e }

/-- The polling loop of `process_batch` (lines 240-261): poll every 5 s while
`wait_time < 300`; `COMPLETED` breaks out, `FAILED` raises, and exhausting the
budget raises the timeout `GeminiAPIError`.  `k` counts poll iterations. -/
def pollLoop (env : Env) (jobId : String) (k : Nat) (waitTime : Nat) :
    Except PyErr Unit :=
  if _h : waitTime < 300 then
    let st := checkBatchStatus env jobId k
    if st.status = "COMPLETED" then
      .ok ()
    else if st.status = "FAILED" then
      .error (.gemini ("Batch job failed: " ++ st.error.getD "Unknown error"))
    else
      pollLoop env jobId (k + 1) (waitTime + 5)
  else
    .error (.gemini "Batch job timed out after 300 seconds")
termination_by 300 - waitTime
decreasing_by omega

/-- Embeds `GeminiBatchProcessor.process_batch` (lines 222-282): submit, poll,
fetch the (simulated) results, keep only the `SUCCESS` items as
`(prompt, image_bytes)` pairs; any exception is re-wrapped into
`GeminiAPIError("Batch processing failed: ...")`. -/
def processBatch (env : Env) (prompts : List String) (batchId : String) :
    Except PyErr (List (String × String)) :=
  match submitBatchJob env prompts batchId with
  | .error e => .error (.gemini ("Batch processing failed: " ++ e.msg))
  | .ok jobId =>
    match pollLoop env jobId 0 0 with
    | .error e => .error (.gemini ("Batch processing failed: " ++ e.msg))
    | .ok _ =>
      let results := simulateBatchResults env jobId
      .ok ((results.filter (fun r => r.status = "SUCCESS")).map
        (fun r => (r.prompt.getD "", r.imageData.getD "")))

/-- Concrete environment: submission succeeds with job id `"jobA"`, every
status lookup reports `COMPLETED`, every generation succeeds. -/
def envCompletedOk : Env :=
  { createBatch := .ok "jobA", fallbackTs := 0, dispatch := fun _ => none,
    getBatch := fun _ => .ok "COMPLETED", gen := fun _ => .ok "img" }

/-- Concrete environment: the external `batches.create` raises, forcing the
fallback job; generation succeeds. -/
def envSubmitFails : Env :=
  { createBatch := .error "api down", fallbackTs := 7,
    dispatch := fun _ => none, getBatch := fun _ => .ok "COMPLETED",
    gen := fun _ => .ok "img" }

/-- Concrete environment: every status lookup reports the non-terminal
`PROCESSING` state, so the polling budget runs out. -/
def envNeverDone : Env :=
  { createBatch := .ok "jobT", fallbackTs := 0, dispatch := fun _ => none,
    getBatch := fun _ => .ok "PROCESSING", gen := fun _ => .ok "img" }

/-- Concrete environment: dispatching the status lookup itself raises. -/
def envDispatchFails : Env :=
  { createBatch := .ok "jobF", fallbackTs := 0,
    dispatch := fun _ => some "boom", getBatch := fun _ => .ok "PROCESSING",
    gen := fun _ => .ok "img" }

/-- Concrete environment: the inner `genai.get_batch` lookup raises. -/
def envLookupRaises : Env :=
  { createBatch := .ok "jobR", fallbackTs := 0, dispatch := fun _ => none,
    getBatch := fun _ => .error "unreachable", gen := fun _ => .ok "img" }

end Batch

namespace Conc

/-- Control point of one task running `RateLimiter.check_user` for its user:
about to acquire the per-user lock; holding it, about to run `is_limited`;
holding it, past a negative check and about to run `add_request`; or returned
with its boolean answer.  `is_limited` and `add_request` are single steps —
they contain no `await` — while the lock acquisition can suspend. -/
inductive TaskSt
  | ready
  | check
  | addStep
  | done (res : Bool)
deriving Repr, DecidableEq

/-- Static parameters of a two-task run: the limiter's `max_requests` and
window, which user each task targets, and each task's wall-clock call time. -/
structure Params where
  maxR : Nat
  w : Int
  uid : Bool → Bool
  tm : Bool → Int

/-- Shared state of two tasks over two users: each user's
`RateLimitInfo.lock` holder, each user's timestamp list, and each task's
control point. -/
structure Sys where
  lockA : Option Bool
  lockB : Option Bool
  reqsA : List Int
  reqsB : List Int
  taskA : TaskSt
  taskB : TaskSt
deriving Repr, DecidableEq

/-- Lock of user `u` (user `false` is A, user `true` is B). -/
def Sys.lockOf (s : Sys) (u : Bool) : Option Bool :=
  if u then s.lockB else s.lockA

/-- Timestamp list of user `u`. -/
def Sys.reqsOf (s : Sys) (u : Bool) : List Int :=
  if u then s.reqsB else s.reqsA

/-- Control point of task `i`. -/
def Sys.taskOf (s : Sys) (i : Bool) : TaskSt :=
  if i then s.taskB else s.taskA

/-- Replace the lock of user `u`. -/
def Sys.setLock (s : Sys) (u : Bool) (v : Option Bool) : Sys :=
  if u then { s with lockB := v } else { s with lockA := v }

/-- Replace the timestamp list of user `u`. -/
def Sys.setReqs (s : Sys) (u : Bool) (r : List Int) : Sys :=
  if u then { s with reqsB := r } else { s with reqsA := r }

/-- Replace the control point of task `i`. -/
def Sys.setTask (s : Sys) (i : Bool) (t : TaskSt) : Sys :=
  if i then { s with taskB := t } else { s with taskA := t }

/-- One scheduler step giving task `i` the processor: acquire the user's lock
when free (otherwise stay blocked), run `is_limited` (pruning and either
returning `False` and releasing, or moving on to the append), or run
`add_request`, return `True` and release.  Mirrors check_user lines 113-124
over the `RateLimit` embedding. -/
def step (p : Params) (s : Sys) (i : Bool) : Sys :=
  match s.taskOf i with
  | .ready =>
    match s.lockOf (p.uid i) with
    | none => (s.setLock (p.uid i) (some i)).setTask i .check
    | some _ => s
  | .check =>
    let pruned := RateLimit.prune (p.tm i - p.w) (s.reqsOf (p.uid i))
    if p.maxR ≤ pruned.length then
      (((s.setReqs (p.uid i) pruned).setTask i (.done false)).setLock (p.uid i) none)
    else
      ((s.setReqs (p.uid i) pruned).setTask i .addStep)
  | .addStep =>
    (((s.setReqs (p.uid i) (s.reqsOf (p.uid i) ++ [p.tm i])).setTask i
        (.done true)).setLock (p.uid i) none)
  | .done _ => s

/-- Run a schedule (an arbitrary interleaving of the two tasks). -/
def run (p : Params) (sched : List Bool) (s : Sys) : Sys :=
  sched.foldl (step p) s

/-- Both users idle and empty, both tasks about to call `check_user`. -/
def init : Sys :=
  ⟨none, none, [], [], .ready, .ready⟩

/-- Parameters of the claim's race: both tasks hit the same user at the same
instant under a limit of one request. -/
def pSame (w now : Int) : Params :=
  ⟨1, w, fun _ => false, fun _ => now⟩

/-- Task `i` is blocked: it wants its user's lock and another task holds it. -/
def blocked (p : Params) (s : Sys) (i : Bool) : Prop :=
  s.taskOf i = .ready ∧ ∃ j, s.lockOf (p.uid i) = some j ∧ j ≠ i

/-- Invariant of the same-user race under a limit of one request with both
calls at instant `now` (the scenario of the claim): user A's list is empty or
holds the single admitted timestamp; the timestamp is present iff some task
has already returned `True`; at most one task returns `True`; a task that
returned `False` saw the stored timestamp; the lock is held exactly by the
task inside the `is_limited`/`add_request` section; and a task about to
append saw an empty list. -/
def Inv1 (now : Int) (s : Sys) : Prop :=
  (s.reqsA = [] ∨ s.reqsA = [now])
  ∧ ((s.taskA = .done true ∨ s.taskB = .done true) ↔ s.reqsA = [now])
  ∧ ¬(s.taskA = .done true ∧ s.taskB = .done true)
  ∧ (s.taskA = .done false → s.reqsA = [now])
  ∧ (s.taskB = .done false → s.reqsA = [now])
  ∧ ((s.taskA = .check ∨ s.taskA = .addStep) ↔ s.lockA = some false)
  ∧ ((s.taskB = .check ∨ s.taskB = .addStep) ↔ s.lockA = some true)
  ∧ (s.taskA = .addStep → s.reqsA = [])
  ∧ (s.taskB = .addStep → s.reqsA = [])

/-- Lock-ownership invariant for arbitrary parameters: a held per-user lock
belongs to a task targeting that user which is inside its critical section. -/
def LockOwn (p : Params) (s : Sys) : Prop :=
  (s.lockA = some false →
    p.uid false = false ∧ (s.taskA = .check ∨ s.taskA = .addStep))
  ∧ (s.lockA = some true →
    p.uid true = false ∧ (s.taskB = .check ∨ s.taskB = .addStep))
  ∧ (s.lockB = some false →
    p.uid false = true ∧ (s.taskA = .check ∨ s.taskA = .addStep))
  ∧ (s.lockB = some true →
    p.uid true = true ∧ (s.taskB = .check ∨ s.taskB = .addStep))

instance (p : Params) (s : Sys) (i : Bool) : Decidable (blocked p s i) := by
  unfold blocked
  infer_instance

end Conc

end BananaBot

namespace BananaBot

namespace RateLimit

theorem mem_prune {c : Int} {l : Window} {t : Int} :
    t ∈ prune c l ↔ t ∈ l ∧ c < t := by
  simp [prune]

theorem prune_keep_all {c : Int} {l : Window} (h : ∀ t ∈ l, c < t) :
    prune c l = l :=
  List.filter_eq_self.mpr fun a ha => decide_eq_true (h a ha)

theorem prune_idem (c : Int) (l : Window) : prune c (prune c l) = prune c l :=
  prune_keep_all fun _ ht => (mem_prune.mp ht).2

theorem prune_append (c : Int) (l l' : Window) :
    prune c (l ++ l') = prune c l ++ prune c l' :=
  List.filter_append l l'

theorem prune_sorted {c : Int} {l : Window} (h : List.Sorted (· ≤ ·) l) :
    List.Sorted (· ≤ ·) (prune c l) :=
  List.Pairwise.filter _ h

theorem prune_length_le (c : Int) (l : Window) :
    (prune c l).length ≤ l.length :=
  List.length_filter_le _ l

theorem prune_length_mono {c c' : Int} (h : c ≤ c') (l : Window) :
    (prune c' l).length ≤ (prune c l).length := by
  induction l with
  | nil => simp [prune]
  | cons a l ih =>
    simp only [prune] at ih ⊢
    by_cases h2 : c' < a
    · rw [List.filter_cons, List.filter_cons, decide_eq_true h2,
        decide_eq_true (lt_of_le_of_lt h h2)]
      simpa using Nat.succ_le_succ ih
    · by_cases h3 : c < a
      · rw [List.filter_cons, List.filter_cons, decide_eq_false h2,
          decide_eq_true h3]
        simpa using Nat.le_succ_of_le ih
      · rw [List.filter_cons, List.filter_cons, decide_eq_false h2,
          decide_eq_false h3]
        simpa using ih

theorem prune_prune_of_le {c c' : Int} (h : c' ≤ c) (l : Window) :
    prune c (prune c' l) = prune c l := by
  induction l with
  | nil => rfl
  | cons a l ih =>
    simp only [prune] at ih ⊢
    by_cases h2 : c < a
    · have h3 : c' < a := lt_of_le_of_lt h h2
      simp [List.filter_cons, h2, h3, ih]
    · by_cases h3 : c' < a
      · simp [List.filter_cons, h2, h3, ih]
      · simp [List.filter_cons, h2, h3, ih]

theorem runChecks_admits (maxRequests : Nat) (w : Int) :
    ∀ (ts pre : List Int),
      pre.length + ts.length ≤ maxRequests →
      (∀ x ∈ ts, ∀ y ∈ pre ++ ts, x - y < w) →
      runChecks maxRequests w ts pre =
        (List.replicate ts.length true, pre ++ ts) := by
  intro ts
  induction ts with
  | nil =>
    intro pre _ _
    simp [runChecks]
  | cons t ts ih =>
    intro pre hlen hspan
    have hkeep : prune (t - w) pre = pre := by
      refine prune_keep_all fun y hy => ?_
      have := hspan t (by simp) y (by simp [hy])
      omega
    have hlt : pre.length < maxRequests := by
      simp only [List.length_cons] at hlen
      omega
    have hfirst : checkUser maxRequests w t pre = (true, pre ++ [t]) := by
      simp [checkUser, isLimited, addRequest, hkeep, Nat.not_le.mpr hlt]
    have hrest := ih (pre ++ [t])
      (by
        simp only [List.length_append, List.length_cons, List.length_nil,
          List.length_cons] at *
        omega)
      (by
        intro x hx y hy
        refine hspan x (by simp [hx]) y ?_
        simpa [List.append_assoc] using hy)
    simp only [runChecks, hfirst, hrest, List.replicate_succ, List.length_cons]
    simp [List.append_assoc]

/-- C2: starting from an empty window, any `N ≤ maxRequests` admit calls whose
instants all lie within one window duration of each other all return `True`
and leave exactly those `N` timestamps stored; with the window full
(`maxRequests` stored timestamps), a further call returns `False` exactly as
long as the oldest stored timestamp has not yet left the window; and a call
finding exactly `maxRequests - 1` live entries succeeds and brings the live
count to `maxRequests`. -/
theorem c2_sliding_window_admission (maxRequests : Nat) (w : Int) :
    (∀ ts : List Int, ts.length ≤ maxRequests →
        (∀ x ∈ ts, ∀ y ∈ ts, x - y < w) →
        runChecks maxRequests w ts [] = (List.replicate ts.length true, ts))
    ∧ (∀ (r : Int) (rest : List Int) (t : Int),
        (r :: rest).length = maxRequests →
        List.Sorted (· ≤ ·) (r :: rest) →
        ((checkUser maxRequests w t (r :: rest)).1 = false ↔ t - w < r))
    ∧ (∀ (reqs : Window) (t : Int), 0 < w → 1 ≤ maxRequests →
        (prune (t - w) reqs).length = maxRequests - 1 →
        (checkUser maxRequests w t reqs).1 = true ∧
        (prune (t - w) (checkUser maxRequests w t reqs).2).length =
          maxRequests) := by
  refine ⟨?_, ?_, ?_⟩
  · intro ts hlen hspan
    simpa using runChecks_admits maxRequests w ts [] (by simpa using hlen)
      (by simpa using hspan)
  · intro r rest t hlen hsort
    have key : (checkUser maxRequests w t (r :: rest)).1 = false ↔
        maxRequests ≤ (prune (t - w) (r :: rest)).length := by
      by_cases h : maxRequests ≤ (prune (t - w) (r :: rest)).length
      · simp [checkUser, isLimited, h]
      · simp [checkUser, isLimited, h]
    rw [key]
    constructor
    · intro hle
      have hlenle := prune_length_le (t - w) (r :: rest)
      have heq : (prune (t - w) (r :: rest)).length = (r :: rest).length := by
        omega
      have hall := List.filter_length_eq_length.mp heq
      have := hall r (by simp)
      simpa using this
    · intro hlt
      have hall : ∀ a ∈ r :: rest, t - w < a := by
        intro a ha
        rcases List.mem_cons.mp ha with rfl | ha'
        · exact hlt
        · exact lt_of_lt_of_le hlt (List.rel_of_sorted_cons hsort a ha')
      rw [prune_keep_all hall, hlen]
  · intro reqs t hw hmax hm1
    have hlt : (prune (t - w) reqs).length < maxRequests := by omega
    have h1 : checkUser maxRequests w t reqs =
        (true, prune (t - w) reqs ++ [t]) := by
      simp [checkUser, isLimited, addRequest, Nat.not_le.mpr hlt]
    refine ⟨by simp [h1], ?_⟩
    rw [h1]
    have hsing : prune (t - w) [t] = [t] :=
      prune_keep_all (by intro x hx; simp at hx; omega)
    simp only [prune_append, prune_idem, hsing, List.length_append,
      List.length_cons, List.length_nil]
    omega

/-- Witness for C2 at `maxRequests = 2`, `w = 10`: two calls at instants 0, 1
both admitted; a third call at 5 refused because the oldest timestamp 0 is
still in the window; and one call at 3 over the single stored timestamp 0
succeeds, filling the window. -/
theorem c2_witness :
    runChecks 2 10 [0, 1] [] = ([true, true], [0, 1])
    ∧ ((checkUser 2 10 5 [0, 1]).1 = false ↔ (5 : Int) - 10 < 0)
    ∧ ((checkUser 2 10 3 [0]).1 = true ∧
        (prune (3 - 10) (checkUser 2 10 3 [0]).2).length = 2) := by
  refine ⟨?_, ?_, ?_⟩
  · exact (c2_sliding_window_admission 2 10).1 [0, 1] (by decide) (by decide)
  · exact (c2_sliding_window_admission 2 10).2.1 0 [1] 5 (by decide) (by decide)
  · exact (c2_sliding_window_admission 2 10).2.2 [0] 3 (by decide) (by decide)
      (by decide)

theorem minOf_eq_or_mem : ∀ (ts : List Int) (t : Int),
    minOf t ts = t ∨ minOf t ts ∈ ts := by
  intro ts
  induction ts with
  | nil => intro t; left; rfl
  | cons a ts ih =>
    intro t
    have heq : minOf t (a :: ts) = minOf (min t a) ts := rfl
    rw [heq]
    rcases ih (min t a) with h | h
    · rcases min_choice t a with hc | hc
      · left; rw [h, hc]
      · right; rw [h, hc]; simp
    · right
      exact List.mem_cons_of_mem a h

theorem minOf_mem (t : Int) (ts : List Int) : minOf t ts ∈ t :: ts := by
  rcases minOf_eq_or_mem ts t with h | h
  · rw [h]; simp
  · exact List.mem_cons_of_mem t h

/-- C7 counterexample: the stored state `[0, 5]` at `now = 12` with a window
of 10 still holds the live timestamp 5 (the pruned window is nonempty), yet
`time_until_reset` returns `None` because it takes the minimum over the whole
stored list, aged entry 0 included — refuting `None` exactly on an empty or
fully-aged window. -/
theorem c7_counterexample :
    ¬ (timeUntilReset 10 12 [0, 5] = none ↔
        ([0, 5] : Window) = [] ∨ prune (12 - 10) [0, 5] = []) := by
  decide

/-- C7 amended: `time_until_reset` returns `None` exactly when the list is
empty or the oldest *recorded* timestamp (minimum over all entries, aged
entries included) has already left the window; any returned value is the
positive time until that oldest recorded timestamp exits.  On a state with no
aged entries — as produced by the `is_limited` pruning that precedes every
call in the limiter — it returns that positive value. -/
theorem c7_time_until_reset (w now t : Int) (ts : List Int) :
    (timeUntilReset w now [] = none)
    ∧ (timeUntilReset w now (t :: ts) = none ↔ minOf t ts + w ≤ now)
    ∧ (∀ r, timeUntilReset w now (t :: ts) = some r →
        r = minOf t ts + w - now ∧ 0 < r)
    ∧ ((∀ x ∈ t :: ts, now - w < x) →
        timeUntilReset w now (t :: ts) = some (minOf t ts + w - now)) := by
  refine ⟨rfl, ?_, ?_, ?_⟩
  · constructor
    · intro hnone
      by_cases h : now < minOf t ts + w
      · have hsome : timeUntilReset w now (t :: ts) =
            some (minOf t ts + w - now) := by
          show (if now < minOf t ts + w then some (minOf t ts + w - now)
                else none) = _
          rw [if_pos h]
        rw [hsome] at hnone
        exact absurd hnone (by simp)
      · omega
    · intro hle
      show (if now < minOf t ts + w then some (minOf t ts + w - now)
            else none) = none
      rw [if_neg (by omega)]
  · intro r hr
    have hs : (if now < minOf t ts + w then some (minOf t ts + w - now)
        else none) = some r := hr
    by_cases h : now < minOf t ts + w
    · rw [if_pos h] at hs
      have hrv := Option.some.inj hs
      constructor
      · omega
      · omega
    · rw [if_neg h] at hs
      exact absurd hs (by simp)
  · intro hall
    have hmem : minOf t ts ∈ t :: ts := minOf_mem t ts
    have := hall _ hmem
    show (if now < minOf t ts + w then some (minOf t ts + w - now)
          else none) = some (minOf t ts + w - now)
    rw [if_pos (by omega)]

/-- Witness for C7: on the pruned-state run `[0, 5]` at `now = 3`, the
returned reset delay 7 is the positive distance to the oldest timestamp's
exit. -/
theorem c7_witness : (7 : Int) = minOf 0 [5] + 10 - 3 ∧ (0 : Int) < 7 :=
  (c7_time_until_reset 10 3 0 [5]).2.2.1 7 (by decide)

/-- C3 counterexample: with `w = 2` and a sole timestamp at 5, a sweep at
`now = 10` removes the user (5 is older than the `now - 2w = 6` cutoff), yet
the window has only been empty since instant 7 — for 3 time units, less than
`2 × w = 4` — refuting removal iff empty for more than `2 × windowDuration`
(at `t = 6` the window still held the timestamp 5). -/
theorem c3_counterexample :
    cleanupUser 2 10 [5] = none ∧ ¬ emptyForMoreThan 2 [5] 10 (2 * 2) := by
  constructor
  · decide
  · rintro ⟨e, he, hall⟩
    have h6 := hall 6 (by omega) (by omega)
    exact (by decide : ¬ windowEmptyAt 2 [5] 6) h6

/-- C3 amended: the sweep removes a user's entry iff every recorded timestamp
is at least `2 × windowDuration` old at sweep time (the user made no request
during the last `2 × windowDuration`); such removal only guarantees the
window has been empty for (any duration under) `1 × windowDuration`, not
`2 ×`. -/
theorem c3_cleanup_condition (w now : Int) (reqs : Window) :
    (cleanupUser w now reqs = none ↔ ∀ t ∈ reqs, t ≤ now - w * 2)
    ∧ (cleanupUser w now reqs = none →
        ∀ d, d < w → emptyForMoreThan w reqs now d) := by
  have hiff : cleanupUser w now reqs = none ↔ ∀ t ∈ reqs, t ≤ now - w * 2 := by
    constructor
    · intro h t ht
      by_contra hgt
      push_neg at hgt
      have hmem : t ∈ prune (now - w * 2) reqs := mem_prune.mpr ⟨ht, by omega⟩
      have hne : prune (now - w * 2) reqs ≠ [] := by
        intro hnil
        rw [hnil] at hmem
        exact absurd hmem (List.not_mem_nil t)
      have hsome : cleanupUser w now reqs = some (prune (now - w * 2) reqs) := by
        show (if (prune (now - w * 2) reqs).isEmpty then none
              else some (prune (now - w * 2) reqs)) = _
        rw [if_neg (by simpa [List.isEmpty_iff] using hne)]
      rw [hsome] at h
      exact absurd h (by simp)
    · intro h
      have hnil : prune (now - w * 2) reqs = [] := by
        refine List.filter_eq_nil_iff.mpr fun t ht => ?_
        have := h t ht
        simp only [decide_eq_true_eq]
        omega
      show (if (prune (now - w * 2) reqs).isEmpty then none
            else some (prune (now - w * 2) reqs)) = none
      rw [if_pos (by simp [hnil])]
  refine ⟨hiff, ?_⟩
  intro h d hd
  refine ⟨w, hd, fun t hta htb => ?_⟩
  have hall := hiff.mp h
  unfold windowEmptyAt
  refine List.filter_eq_nil_iff.mpr fun x hx => ?_
  have := hall x hx
  simp only [decide_eq_true_eq]
  omega

/-- Witness for C3 amended: the removed state `[5]` (sweep at `now = 10`,
`w = 2`) has been window-empty for any duration under one window. -/
theorem c3_witness : emptyForMoreThan 2 [5] 10 1 :=
  (c3_cleanup_condition 2 10 [5]).2 (by decide) 1 (by decide)

theorem applyOp_inv (maxRequests : Nat) (w : Int) (hw : 0 < w) (T : Int)
    (reqs : Window) (op : Op) (hT : T ≤ op.time)
    (hs : List.Sorted (· ≤ ·) reqs) (hub : ∀ x ∈ reqs, x ≤ T)
    (hlive : (prune (T - w) reqs).length ≤ maxRequests) :
    List.Sorted (· ≤ ·) (applyOp maxRequests w reqs op)
    ∧ (∀ x ∈ applyOp maxRequests w reqs op, x ≤ op.time)
    ∧ (prune (op.time - w) (applyOp maxRequests w reqs op)).length ≤
        maxRequests := by
  cases op with
  | reset t =>
    refine ⟨List.sorted_nil, by simp [applyOp], by simp [applyOp, prune]⟩
  | cleanup t =>
    have hT' : T ≤ t := by simpa [Op.time] using hT
    have happ : applyOp maxRequests w reqs (.cleanup t) =
        prune (t - w * 2) reqs := rfl
    refine ⟨happ ▸ prune_sorted hs, ?_, ?_⟩
    · intro x hx
      rw [happ] at hx
      have := hub x (mem_prune.mp hx).1
      simp only [Op.time]
      omega
    · rw [happ]
      simp only [Op.time]
      rw [prune_prune_of_le (by omega)]
      calc (prune (t - w) reqs).length
          ≤ (prune (T - w) reqs).length := prune_length_mono (by omega) reqs
        _ ≤ maxRequests := hlive
  | status t =>
    have hT' : T ≤ t := by simpa [Op.time] using hT
    have happ : applyOp maxRequests w reqs (.status t) =
        prune (t - w) reqs := rfl
    refine ⟨happ ▸ prune_sorted hs, ?_, ?_⟩
    · intro x hx
      rw [happ] at hx
      have := hub x (mem_prune.mp hx).1
      simp only [Op.time]
      omega
    · rw [happ]
      simp only [Op.time]
      rw [prune_idem]
      calc (prune (t - w) reqs).length
          ≤ (prune (T - w) reqs).length := prune_length_mono (by omega) reqs
        _ ≤ maxRequests := hlive
  | check t =>
    have hT' : T ≤ t := by simpa [Op.time] using hT
    have hmono : (prune (t - w) reqs).length ≤ (prune (T - w) reqs).length :=
      prune_length_mono (by omega) reqs
    by_cases hlim : maxRequests ≤ (prune (t - w) reqs).length
    · have happ : applyOp maxRequests w reqs (.check t) =
          prune (t - w) reqs := by
        simp [applyOp, checkUser, isLimited, hlim]
      refine ⟨happ ▸ prune_sorted hs, ?_, ?_⟩
      · intro x hx
        rw [happ] at hx
        have := hub x (mem_prune.mp hx).1
        simp only [Op.time]
        omega
      · rw [happ]
        simp only [Op.time]
        rw [prune_idem]
        omega
    · have happ : applyOp maxRequests w reqs (.check t) =
          prune (t - w) reqs ++ [t] := by
        simp [applyOp, checkUser, isLimited, addRequest, hlim]
      have hin : ∀ x ∈ prune (t - w) reqs, x ≤ t := by
        intro x hx
        have := hub x (mem_prune.mp hx).1
        omega
      refine ⟨?_, ?_, ?_⟩
      · rw [happ]
        unfold List.Sorted at *
        rw [List.pairwise_append]
        exact ⟨prune_sorted hs, List.pairwise_singleton _ t,
          by intro x hx y hy; simp at hy; subst hy; exact hin x hx⟩
      · intro x hx
        rw [happ] at hx
        simp only [Op.time]
        rcases List.mem_append.mp hx with hx' | hx'
        · exact hin x hx'
        · simp at hx'
          omega
      · rw [happ]
        simp only [Op.time]
        have hsing : prune (t - w) [t] = [t] :=
          prune_keep_all (by intro x hx; simp at hx; omega)
        rw [prune_append, prune_idem, hsing]
        simp only [List.length_append, List.length_cons, List.length_nil]
        omega

theorem runOps_inv (maxRequests : Nat) (w : Int) (hw : 0 < w) :
    ∀ (ops : List Op) (T : Int) (reqs : Window),
      List.Sorted (· ≤ ·) reqs → (∀ x ∈ reqs, x ≤ T) →
      (prune (T - w) reqs).length ≤ maxRequests →
      List.Chain (· ≤ ·) T (ops.map Op.time) →
      List.Sorted (· ≤ ·) (ops.foldl (applyOp maxRequests w) reqs)
      ∧ (∀ x ∈ ops.foldl (applyOp maxRequests w) reqs,
          x ≤ (ops.map Op.time).getLastD T)
      ∧ (prune ((ops.map Op.time).getLastD T - w)
          (ops.foldl (applyOp maxRequests w) reqs)).length ≤ maxRequests := by
  intro ops
  induction ops with
  | nil =>
    intro T reqs hs hub hlive _
    exact ⟨hs, hub, hlive⟩
  | cons op ops ih =>
    intro T reqs hs hub hlive hchain
    rw [List.map_cons] at hchain
    cases hchain with
    | cons hTop hchain' =>
      have hstep := applyOp_inv maxRequests w hw T reqs op hTop hs hub hlive
      have hrec := ih op.time (applyOp maxRequests w reqs op) hstep.1
        hstep.2.1 hstep.2.2 hchain'
      simp only [List.foldl_cons, List.map_cons, List.getLastD_cons]
      exact hrec

/-- C9: over any monotone-time sequence of operations (`check_user`,
`get_user_status`, `reset_user`, the cleanup sweep) from a fresh user state,
the stored timestamp list stays chronologically sorted and, at the completing
instant of the final operation, holds at most `maxRequests` entries inside the
current window; and `get_user_status` always reports
`requests_remaining = max(0, max_requests - requests_used) ≥ 0`. -/
theorem c9_limiter_invariants (maxRequests : Nat) (w : Int) (op₀ : Op)
    (ops : List Op) (hw : 0 < w) (hm : MonoTimes (op₀ :: ops)) :
    (List.Sorted (· ≤ ·) (runOps maxRequests w (op₀ :: ops))
      ∧ (prune ((ops.map Op.time).getLastD op₀.time - w)
          (runOps maxRequests w (op₀ :: ops))).length ≤ maxRequests)
    ∧ (∀ (now : Int) (reqs : Window),
        (getUserStatus maxRequests w now reqs).1.requestsRemaining =
          max 0 ((maxRequests : Int) -
            (getUserStatus maxRequests w now reqs).1.requestsUsed)
        ∧ 0 ≤ (getUserStatus maxRequests w now reqs).1.requestsRemaining) := by
  constructor
  · have hm' : List.Chain (· ≤ ·) op₀.time (ops.map Op.time) := by
      unfold MonoTimes at hm
      rw [List.map_cons] at hm
      exact hm
    have hstep := applyOp_inv maxRequests w hw op₀.time [] op₀ le_rfl
      List.sorted_nil (by simp) (by simp [prune])
    have hrec := runOps_inv maxRequests w hw ops op₀.time
      (applyOp maxRequests w [] op₀) hstep.1 hstep.2.1 hstep.2.2 hm'
    exact ⟨hrec.1, hrec.2.2⟩
  · intro now reqs
    exact ⟨rfl, le_max_left 0 _⟩

/-- Witness for C9: three admit calls at instants 0, 1, 2 under
`maxRequests = 2`, `w = 10` leave a sorted store, and a status query reports a
non-negative remaining budget. -/
theorem c9_witness :
    List.Sorted (· ≤ ·) (runOps 2 10 [Op.check 0, Op.check 1, Op.check 2])
    ∧ 0 ≤ (getUserStatus 2 10 5 [0, 1]).1.requestsRemaining := by
  have h := c9_limiter_invariants 2 10 (Op.check 0) [Op.check 1, Op.check 2]
    (by norm_num) (by simp [MonoTimes, Op.time, List.chain'_cons,
      List.chain'_singleton])
  exact ⟨h.1.1, (h.2 5 [0, 1]).2⟩

end RateLimit

namespace Gemini

theorem generateGo_attempts_of_api (oracle : Nat → Except GenErr String)
    (retryCount : Nat) :
    ∀ (n a : Nat), retryCount - a ≤ n → a < retryCount →
      (∀ j, a ≤ j → j < retryCount → ∃ m, oracle j = .error (.api m)) →
      (generateGo oracle retryCount a).attempts = retryCount := by
  intro n
  induction n with
  | zero =>
    intro a h1 h2 _
    omega
  | succ n ih =>
    intro a h1 h2 hall
    obtain ⟨m, hm⟩ := hall a le_rfl h2
    unfold generateGo
    rw [dif_pos h2, hm]
    show (if a = retryCount - 1 then
        ({ result := .error (.api ("Failed to generate image after " ++
            toString retryCount ++ " attempts: " ++ m)),
           attempts := a + 1, sleeps := [] } : RunTrace)
      else
        let r := generateGo oracle retryCount (a + 1)
        { result := r.result, attempts := r.attempts,
          sleeps := 2 ^ a :: r.sleeps }).attempts = retryCount
    by_cases hlast : a = retryCount - 1
    · rw [if_pos hlast]
      show a + 1 = retryCount
      omega
    · rw [if_neg hlast]
      show (generateGo oracle retryCount (a + 1)).attempts = retryCount
      exact ih (a + 1) (by omega) (by omega)
        (fun j hj1 hj2 => hall j (by omega) hj2)

/-- C5: a `ContentFilterError` on the first underlying call makes both
`generate_image` and `edit_image` re-raise it with exactly one attempt and no
backoff sleep, for every `retry_count ≥ 1`; whereas when every underlying call
raises a non-content-filter error, `generate_image` makes exactly
`retry_count` attempts. -/
theorem c5_content_filter_single_attempt
    (genOracle editOracle : Nat → Except GenErr String) (retryCount : Nat)
    (hrc : 1 ≤ retryCount) (m m' : String) :
    (genOracle 0 = .error (.contentFilter m) →
      (generateImage genOracle retryCount).result = .error (.contentFilter m)
      ∧ (generateImage genOracle retryCount).attempts = 1
      ∧ (generateImage genOracle retryCount).sleeps = [])
    ∧ (editOracle 0 = .error (.contentFilter m') →
      (editImage editOracle retryCount).result = .error (.contentFilter m')
      ∧ (editImage editOracle retryCount).attempts = 1
      ∧ (editImage editOracle retryCount).sleeps = [])
    ∧ ((∀ j, j < retryCount → ∃ mj, genOracle j = .error (.api mj)) →
      (generateImage genOracle retryCount).attempts = retryCount) := by
  refine ⟨?_, ?_, ?_⟩
  · intro h0
    have hrun : generateImage genOracle retryCount =
        { result := .error (.contentFilter m), attempts := 1, sleeps := [] } := by
      unfold generateImage generateGo
      rw [dif_pos (by omega : 0 < retryCount), h0]
    rw [hrun]
    exact ⟨rfl, rfl, rfl⟩
  · intro h0
    have hrun : editImage editOracle retryCount =
        { result := .error (.contentFilter m'), attempts := 1, sleeps := [] } := by
      unfold editImage editGo
      rw [dif_pos (by omega : 0 < retryCount), h0]
    rw [hrun]
    exact ⟨rfl, rfl, rfl⟩
  · intro hall
    exact generateGo_attempts_of_api genOracle retryCount retryCount 0
      (by omega) (by omega) (fun j _ hj2 => hall j hj2)

/-- Witness for C5: with `retry_count = 3`, a content-filter rejection on the
first call stops both paths after one attempt, while persistent transient
errors consume all three attempts. -/
theorem c5_witness :
    (generateImage (fun _ => .error (.contentFilter "blocked")) 3).attempts = 1
    ∧ (editImage (fun _ => .error (.contentFilter "blocked")) 3).attempts = 1
    ∧ (generateImage (fun _ => .error (.api "boom")) 3).attempts = 3 := by
  have h1 := c5_content_filter_single_attempt
    (fun _ => .error (.contentFilter "blocked"))
    (fun _ => .error (.contentFilter "blocked")) 3 (by norm_num)
    "blocked" "blocked"
  have h2 := c5_content_filter_single_attempt
    (fun _ => .error (.api "boom")) (fun _ => .error (.api "boom")) 3
    (by norm_num) "x" "x"
  exact ⟨(h1.1 rfl).2.1, (h1.2.1 rfl).2.1, h2.2.2 (fun j _ => ⟨"boom", rfl⟩)⟩

end Gemini

namespace Batch

theorem pyStartsWith_append (pre rest : String) :
    pyStartsWith (pre ++ rest) pre = true := by
  unfold pyStartsWith
  rw [List.isPrefixOf_iff_prefix]
  show pre.data <+: pre.data ++ rest.data
  exact List.prefix_append _ _

theorem pyStartsWith_fallback (batchId : String) (ts : Nat) :
    pyStartsWith (fallbackJobName batchId ts) "fallback_batch_" = true := by
  unfold pyStartsWith fallbackJobName
  rw [List.isPrefixOf_iff_prefix]
  show "fallback_batch_".data <+:
    ((("fallback_batch_".data ++ batchId.data) ++ "_".data) ++
      (toString ts).data)
  rw [List.append_assoc, List.append_assoc]
  exact List.prefix_append _ _

theorem pollLoop_completed_first (env : Env) (jobId : String)
    (h : (checkBatchStatus env jobId 0).status = "COMPLETED") :
    pollLoop env jobId 0 0 = .ok () := by
  unfold pollLoop
  rw [dif_pos (by norm_num : (0 : Nat) < 300), if_pos h]

theorem pollLoop_failed_first (env : Env) (jobId : String) (e : String)
    (hd : env.dispatch 0 = some e) :
    pollLoop env jobId 0 0 =
      .error (.gemini ("Batch job failed: " ++ e)) := by
  have hcs : checkBatchStatus env jobId 0 =
      { status := "FAILED", error := some e } := by
    unfold checkBatchStatus
    rw [hd]
  unfold pollLoop
  rw [dif_pos (by norm_num : (0 : Nat) < 300), hcs]
  rw [if_neg (by simp), if_pos rfl]
  rfl

theorem pollLoop_timeout (env : Env) (jobId : String)
    (hnt : ∀ k, (checkBatchStatus env jobId k).status ≠ "COMPLETED" ∧
        (checkBatchStatus env jobId k).status ≠ "FAILED") :
    ∀ (n k waitTime : Nat), 300 ≤ waitTime + 5 * n →
      pollLoop env jobId k waitTime =
        .error (.gemini "Batch job timed out after 300 seconds") := by
  intro n
  induction n with
  | zero =>
    intro k waitTime h
    unfold pollLoop
    rw [dif_neg (by omega)]
  | succ n ih =>
    intro k waitTime h
    by_cases hw : waitTime < 300
    · unfold pollLoop
      rw [dif_pos hw, if_neg (hnt k).1, if_neg (hnt k).2]
      exact ih (k + 1) (waitTime + 5) (by omega)
    · unfold pollLoop
      rw [dif_neg hw]

theorem submitBatchJob_ok (env : Env) (prompts : List String)
    (batchId : String) (h1 : 1 ≤ prompts.length) (h2 : prompts.length ≤ 100) :
    submitBatchJob env prompts batchId = .ok (syncSubmitBatch env batchId) := by
  unfold submitBatchJob
  rw [if_neg (by omega), if_neg (by omega)]

theorem simulate_success_slice (env : Env) (jobId : String) :
    ((simulateBatchResults env jobId).filter
        (fun r => r.status = "SUCCESS")).map
      (fun r => (r.prompt.getD "", r.imageData.getD "")) =
    ((List.range 3).filterMap fun i =>
      match env.gen i with
      | .ok img => some ("Batch generated image " ++ toString (i + 1), img)
      | .error _ => none) := by
  rcases hg0 : env.gen 0 with m0 | i0 <;> rcases hg1 : env.gen 1 with m1 | i1 <;>
    rcases hg2 : env.gen 2 with m2 | i2 <;>
    simp [simulateBatchResults, List.range_succ, hg0, hg1, hg2]

theorem processBatch_ok (env : Env) (prompts : List String) (batchId : String)
    (h1 : 1 ≤ prompts.length) (h2 : prompts.length ≤ 100) (jobId : String)
    (hsub : syncSubmitBatch env batchId = jobId)
    (hpoll : pollLoop env jobId 0 0 = .ok ()) :
    processBatch env prompts batchId =
      .ok ((List.range 3).filterMap fun i =>
        match env.gen i with
        | .ok img => some ("Batch generated image " ++ toString (i + 1), img)
        | .error _ => none) := by
  have hsj : submitBatchJob env prompts batchId = .ok jobId := by
    rw [submitBatchJob_ok env prompts batchId h1 h2, hsub]
  unfold processBatch
  simp only [hsj, hpoll]
  rw [simulate_success_slice]

theorem processBatch_err (env : Env) (prompts : List String)
    (batchId : String) (h1 : 1 ≤ prompts.length) (h2 : prompts.length ≤ 100)
    (jobId : String) (hsub : syncSubmitBatch env batchId = jobId) (e : PyErr)
    (hpoll : pollLoop env jobId 0 0 = .error e) :
    processBatch env prompts batchId =
      .error (.gemini ("Batch processing failed: " ++ e.msg)) := by
  have hsj : submitBatchJob env prompts batchId = .ok jobId := by
    rw [submitBatchJob_ok env prompts batchId h1 h2, hsub]
  unfold processBatch
  simp only [hsj, hpoll]

/-- C1 counterexample: a batch of one prompt that completes normally (all
simulated generations succeed) returns three outcomes, not one per submitted
prompt — the simulated results ignore the prompt list entirely. -/
theorem c1_counterexample :
    processBatch envCompletedOk ["a"] "b1" =
      .ok [("Batch generated image 1", "img"),
           ("Batch generated image 2", "img"),
           ("Batch generated image 3", "img")]
    ∧ (3 : Nat) ≠ (["a"] : List String).length := by
  refine ⟨?_, by decide⟩
  have hpoll : pollLoop envCompletedOk "jobA" 0 0 = .ok () :=
    pollLoop_completed_first envCompletedOk "jobA" rfl
  have h := processBatch_ok envCompletedOk ["a"] "b1" (by norm_num)
    (by norm_num) "jobA" rfl hpoll
  rw [h]
  rfl

/-- C1 amended: on every terminal-completed run, `process_batch` returns
exactly the `SUCCESS` items of the simulated result list — three simulated
slots with synthetic prompts `"Batch generated image i"`, successes kept and
failures dropped — independent of the submitted prompt list, so the returned
length is the number of successful simulated generations (at most 3), not the
number of prompts. -/
theorem c1_completed_results (env : Env) (prompts : List String)
    (batchId : String) (h1 : 1 ≤ prompts.length) (h2 : prompts.length ≤ 100)
    (jobId : String) (hsub : syncSubmitBatch env batchId = jobId)
    (hpoll : pollLoop env jobId 0 0 = .ok ()) :
    processBatch env prompts batchId =
      .ok ((List.range 3).filterMap fun i =>
        match env.gen i with
        | .ok img => some ("Batch generated image " ++ toString (i + 1), img)
        | .error _ => none) :=
  processBatch_ok env prompts batchId h1 h2 jobId hsub hpoll

/-- Witness for C1 amended: two prompts in, three synthesized outcomes out. -/
theorem c1_witness :
    processBatch envCompletedOk ["a", "b"] "w1" =
      .ok [("Batch generated image 1", "img"),
           ("Batch generated image 2", "img"),
           ("Batch generated image 3", "img")] := by
  have h := c1_completed_results envCompletedOk ["a", "b"] "w1" (by norm_num)
    (by norm_num) "jobA" rfl
    (pollLoop_completed_first envCompletedOk "jobA" rfl)
  rw [h]
  rfl

/-- C4 counterexample: submitting `["a", "b", "c"]` with the external batch
creation forced to fail produces fallback results whose prompts are the
synthetic `"Batch generated image i"` strings, not the submitted prompts in
order. -/
theorem c4_counterexample :
    processBatch envSubmitFails ["a", "b", "c"] "b4" =
      .ok [("Batch generated image 1", "img"),
           ("Batch generated image 2", "img"),
           ("Batch generated image 3", "img")]
    ∧ (["Batch generated image 1", "Batch generated image 2",
        "Batch generated image 3"] : List String) ≠ ["a", "b", "c"] := by
  refine ⟨?_, by decide⟩
  have hst : (checkBatchStatus envSubmitFails (fallbackJobName "b4" 7) 0).status
      = "COMPLETED" := by
    unfold checkBatchStatus
    show (syncCheckStatus envSubmitFails (fallbackJobName "b4" 7) 0).status = _
    unfold syncCheckStatus
    rw [if_pos (pyStartsWith_fallback "b4" 7)]
  have h := processBatch_ok envSubmitFails ["a", "b", "c"] "b4" (by norm_num)
    (by norm_num) (fallbackJobName "b4" 7) rfl
    (pollLoop_completed_first envSubmitFails (fallbackJobName "b4" 7) hst)
  rw [h]
  rfl

/-- C4 amended: when the external batch creation raises, `_sync_submit_batch`
falls back to a mock job whose id carries the `fallback_batch_` prefix (and is
hence immediately reported `COMPLETED`); the synthesized results then come
from the simulation path — exactly three items with synthetic prompts
`"Batch generated image i"`, per-item success mirroring the single-image
generation oracle — and do not reproduce the originally submitted prompts or
their order. -/
theorem c4_fallback_results (env : Env) (prompts : List String)
    (batchId : String) (e : String) (h1 : 1 ≤ prompts.length)
    (h2 : prompts.length ≤ 100) (hfail : env.createBatch = .error e)
    (hd : env.dispatch 0 = none) :
    pyStartsWith (syncSubmitBatch env batchId) "fallback_batch_" = true
    ∧ processBatch env prompts batchId =
        .ok ((List.range 3).filterMap fun i =>
          match env.gen i with
          | .ok img => some ("Batch generated image " ++ toString (i + 1), img)
          | .error _ => none) := by
  have hsub : syncSubmitBatch env batchId =
      fallbackJobName batchId env.fallbackTs := by
    unfold syncSubmitBatch
    rw [hfail]
  have hpw := pyStartsWith_fallback batchId env.fallbackTs
  refine ⟨by rw [hsub]; exact hpw, ?_⟩
  have hst : (checkBatchStatus env (fallbackJobName batchId env.fallbackTs)
      0).status = "COMPLETED" := by
    unfold checkBatchStatus
    rw [hd]
    unfold syncCheckStatus
    rw [if_pos hpw]
  exact processBatch_ok env prompts batchId h1 h2 _ hsub
    (pollLoop_completed_first env _ hst)

/-- Witness for C4 amended: the forced-failure run goes through the
fallback-prefixed job id and yields the three synthesized outcomes. -/
theorem c4_witness :
    pyStartsWith (syncSubmitBatch envSubmitFails "w4") "fallback_batch_" = true
    ∧ processBatch envSubmitFails ["x"] "w4" =
        .ok [("Batch generated image 1", "img"),
             ("Batch generated image 2", "img"),
             ("Batch generated image 3", "img")] := by
  have h := c4_fallback_results envSubmitFails ["x"] "w4" "api down"
    (by norm_num) (by norm_num) rfl rfl
  refine ⟨h.1, ?_⟩
  rw [h.2]
  rfl

theorem envNeverDone_nonterminal (k : Nat) :
    (checkBatchStatus envNeverDone "jobT" k).status ≠ "COMPLETED" ∧
    (checkBatchStatus envNeverDone "jobT" k).status ≠ "FAILED" := by
  have h : checkBatchStatus envNeverDone "jobT" k =
      { status := "PROCESSING", error := none } := rfl
  rw [h]
  exact ⟨by decide, by decide⟩

/-- C6 counterexample: a run whose external status never turns terminal ends,
after the 300-second budget, in `GeminiAPIError` — the very same exception
type produced by a job-level failure; the two outcomes differ only in their
message strings, and no `TimedOut` result kind exists. -/
theorem c6_counterexample :
    processBatch envNeverDone ["a"] "b6" =
      .error (.gemini
        "Batch processing failed: Batch job timed out after 300 seconds")
    ∧ processBatch envDispatchFails ["a"] "b6f" =
      .error (.gemini "Batch processing failed: Batch job failed: boom")
    ∧ PyErr.isGemini (.gemini
        "Batch processing failed: Batch job timed out after 300 seconds") =
      PyErr.isGemini (.gemini
        "Batch processing failed: Batch job failed: boom") := by
  refine ⟨?_, ?_, rfl⟩
  · have hto := pollLoop_timeout envNeverDone "jobT"
      envNeverDone_nonterminal 60 0 0 (by norm_num)
    exact processBatch_err envNeverDone ["a"] "b6" (by norm_num) (by norm_num)
      "jobT" rfl _ hto
  · have hfl := pollLoop_failed_first envDispatchFails "jobF" "boom" rfl
    exact processBatch_err envDispatchFails ["a"] "b6f" (by norm_num)
      (by norm_num) "jobF" rfl _ hfl

/-- C6 amended: exhausting the 300-second polling budget without a terminal
external status makes `process_batch` raise
`GeminiAPIError("Batch processing failed: Batch job timed out after 300
seconds")` — the same exception type as a job-level failure, which raises
`GeminiAPIError("Batch processing failed: Batch job failed: ...")`; the caller
can distinguish the two outcomes only by message text, and no distinct
timed-out result kind or job status exists. -/
theorem c6_timeout_is_gemini_error (env env2 : Env) (prompts : List String)
    (batchId batchId2 : String) (jobId jobId2 : String) (e : String)
    (h1 : 1 ≤ prompts.length) (h2 : prompts.length ≤ 100)
    (hsub : syncSubmitBatch env batchId = jobId)
    (hnt : ∀ k, (checkBatchStatus env jobId k).status ≠ "COMPLETED" ∧
        (checkBatchStatus env jobId k).status ≠ "FAILED")
    (hsub2 : syncSubmitBatch env2 batchId2 = jobId2)
    (hd2 : env2.dispatch 0 = some e) :
    processBatch env prompts batchId =
      .error (.gemini
        "Batch processing failed: Batch job timed out after 300 seconds")
    ∧ processBatch env2 prompts batchId2 =
      .error (.gemini ("Batch processing failed: Batch job failed: " ++ e))
    ∧ PyErr.isGemini (.gemini
        "Batch processing failed: Batch job timed out after 300 seconds") =
      PyErr.isGemini (.gemini
        ("Batch processing failed: Batch job failed: " ++ e)) := by
  refine ⟨?_, ?_, rfl⟩
  · exact processBatch_err env prompts batchId h1 h2 jobId hsub _
      (pollLoop_timeout env jobId hnt 60 0 0 (by norm_num))
  · exact processBatch_err env2 prompts batchId2 h1 h2 jobId2 hsub2 _
      (pollLoop_failed_first env2 jobId2 e hd2)

/-- Witness for C6 amended, at the concrete never-terminal and
dispatch-failing environments. -/
theorem c6_witness :
    processBatch envNeverDone ["w"] "w6" =
      .error (.gemini
        "Batch processing failed: Batch job timed out after 300 seconds")
    ∧ processBatch envDispatchFails ["w"] "w6f" =
      .error (.gemini
        ("Batch processing failed: Batch job failed: " ++ "boom")) := by
  have h := c6_timeout_is_gemini_error envNeverDone envDispatchFails ["w"]
    "w6" "w6f" "jobT" "jobF" "boom" (by norm_num) (by norm_num) rfl
    envNeverDone_nonterminal rfl rfl
  exact ⟨h.1, h.2.1⟩

/-- C10: when dispatching the status lookup succeeds but the inner external
lookup raises, `check_batch_status` reports the optimistic
`{"status": "COMPLETED"}`; `fallback_batch_`-prefixed job ids always report
`COMPLETED`; and the `{"status": "FAILED", "error": ...}` dictionary — the
only error-carrying `FAILED` shape — is produced exactly when dispatching the
lookup itself raises, the only other way a `FAILED` status string can appear
being a verbatim external state named `"FAILED"`. -/
theorem c10_status_fallbacks (env : Env) (jobId : String) (k : Nat) :
    (env.dispatch k = none → ∀ e, env.getBatch k = .error e →
        checkBatchStatus env jobId k = { status := "COMPLETED", error := none })
    ∧ (env.dispatch k = none → pyStartsWith jobId "fallback_batch_" = true →
        checkBatchStatus env jobId k = { status := "COMPLETED", error := none })
    ∧ (∀ e, checkBatchStatus env jobId k =
        { status := "FAILED", error := some e } ↔ env.dispatch k = some e)
    ∧ ((checkBatchStatus env jobId k).status = "FAILED" →
        env.dispatch k ≠ none ∨ env.getBatch k = .ok "FAILED") := by
  refine ⟨?_, ?_, ?_, ?_⟩
  · intro hd e hg
    unfold checkBatchStatus
    rw [hd]
    unfold syncCheckStatus
    by_cases hp : pyStartsWith jobId "fallback_batch_" = true
    · rw [if_pos hp]
    · rw [if_neg hp, hg]
  · intro hd hp
    unfold checkBatchStatus
    rw [hd]
    unfold syncCheckStatus
    rw [if_pos hp]
  · intro e
    rcases hdk : env.dispatch k with _ | e'
    · have hsync : checkBatchStatus env jobId k = syncCheckStatus env jobId k := by
        unfold checkBatchStatus
        rw [hdk]
      have herr : (syncCheckStatus env jobId k).error = none := by
        unfold syncCheckStatus
        by_cases hp : pyStartsWith jobId "fallback_batch_" = true
        · rw [if_pos hp]
        · rw [if_neg hp]
          rcases hg : env.getBatch k with e2 | st2
          · rfl
          · rfl
      constructor
      · intro hc
        rw [hsync] at hc
        have hce := congrArg StatusDict.error hc
        rw [herr] at hce
        exact absurd hce (by simp)
      · intro hc
        exact absurd hc (by simp)
    · have hcb : checkBatchStatus env jobId k =
          { status := "FAILED", error := some e' } := by
        unfold checkBatchStatus
        rw [hdk]
      constructor
      · intro hc
        rw [hcb] at hc
        simp only [StatusDict.mk.injEq, Option.some.injEq] at hc
        rw [hc.2]
      · intro hc
        simp only [Option.some.injEq] at hc
        rw [hcb, hc]
  · intro hst
    rcases hdk : env.dispatch k with _ | e'
    · right
      have hsync : checkBatchStatus env jobId k = syncCheckStatus env jobId k := by
        unfold checkBatchStatus
        rw [hdk]
      rw [hsync] at hst
      unfold syncCheckStatus at hst
      by_cases hp : pyStartsWith jobId "fallback_batch_" = true
      · rw [if_pos hp] at hst
        exact absurd hst (by simp)
      · rw [if_neg hp] at hst
        rcases hg : env.getBatch k with e2 | st2
        · rw [hg] at hst
          exact absurd hst (by simp)
        · rw [hg] at hst
          have hs2 : st2 = "FAILED" := hst
          rw [hs2]
    · left
      simp

/-- Witness for C10: a raising inner lookup reports `COMPLETED`; a raising
dispatch reports the `FAILED` error dictionary. -/
theorem c10_witness :
    checkBatchStatus envLookupRaises "jobR" 0 =
      { status := "COMPLETED", error := none }
    ∧ checkBatchStatus envDispatchFails "jobF" 0 =
      { status := "FAILED", error := some "boom" } := by
  refine ⟨(c10_status_fallbacks envLookupRaises "jobR" 0).1 rfl "unreachable"
    rfl, ?_⟩
  exact ((c10_status_fallbacks envDispatchFails "jobF" 0).2.2.1 "boom").mpr rfl

end Batch

namespace Conc

theorem inv1_init (now : Int) : Inv1 now init := by
  refine ⟨Or.inl rfl, by simp [init], by simp [init], by simp [init],
    by simp [init], by simp [init], by simp [init], by simp [init],
    by simp [init]⟩

open RateLimit in
theorem inv1_step (w now : Int) (hw : 0 < w) (s : Sys) (i : Bool)
    (h : Inv1 now s) : Inv1 now (step (pSame w now) s i) := by
  obtain ⟨lA, lB, rA, rB, tA, tB⟩ := s
  obtain ⟨h1, h2, h3, h4a, h4b, h5a, h5b, h6a, h6b⟩ := h
  have hpn : prune (now - w) [now] = [now] := by
    refine prune_keep_all ?_
    intro x hx
    simp at hx
    omega
  cases i
  case false =>
    cases tA
    case ready =>
      cases lA
      case none =>
        show Inv1 now ⟨some false, lB, rA, rB, .check, tB⟩
        exact ⟨h1, by simpa using h2, by simp, by simp, by simpa using h4b,
          by simp, by simpa using h5b, by simp, by simpa using h6b⟩
      case some j =>
        exact ⟨h1, h2, h3, h4a, h4b, h5a, h5b, h6a, h6b⟩
    case check =>
      have hlA : lA = some false := h5a.mp (Or.inl rfl)
      subst hlA
      rcases h1 with hr | hr <;> subst hr
      · show Inv1 now ⟨some false, lB, [], rB, .addStep, tB⟩
        exact ⟨Or.inl rfl, by simpa using h2, by simp, by simp,
          by simpa using h4b, by simp, by simpa using h5b, fun _ => rfl,
          fun _ => rfl⟩
      · have hstep : step (pSame w now) ⟨some false, lB, [now], rB, .check, tB⟩
            false = ⟨none, lB, [now], rB, .done false, tB⟩ := by
          have hc : (1 : Nat) ≤ (prune (now - w) [now]).length := by
            rw [hpn]
            simp
          show (if (1 : Nat) ≤ (prune (now - w) [now]).length then
              (⟨none, lB, prune (now - w) [now], rB, .done false, tB⟩ : Sys)
            else ⟨some false, lB, prune (now - w) [now], rB, .addStep, tB⟩)
            = ⟨none, lB, [now], rB, .done false, tB⟩
          rw [if_pos hc, hpn]
        rw [hstep]
        refine ⟨Or.inr rfl, ?_, by simp, fun _ => rfl, fun _ => rfl, by simp,
          by simpa using h5b, by simp, ?_⟩
        · constructor
          · intro _; rfl
          · intro _
            rcases h2.mpr rfl with hc | hc
            · exact absurd hc (by simp)
            · exact Or.inr (by simpa using hc)
        · intro hc
          have := h5b.mp (Or.inr (by simpa using hc))
          simp at this
    case addStep =>
      have hlA : lA = some false := h5a.mp (Or.inr rfl)
      subst hlA
      have hrA : rA = [] := h6a rfl
      subst hrA
      show Inv1 now ⟨none, lB, [now], rB, .done true, tB⟩
      refine ⟨Or.inr rfl, ⟨fun _ => rfl, fun _ => Or.inl rfl⟩, ?_,
        fun _ => rfl, fun _ => rfl, by simp, by simpa using h5b, by simp, ?_⟩
      · intro hc
        have := h2.mp (Or.inr (by simpa using hc.2))
        simp at this
      · intro hc
        have := h5b.mp (Or.inr (by simpa using hc))
        simp at this
    case done r =>
      exact ⟨h1, h2, h3, h4a, h4b, h5a, h5b, h6a, h6b⟩
  case true =>
    cases tB
    case ready =>
      cases lA
      case none =>
        show Inv1 now ⟨some true, lB, rA, rB, tA, .check⟩
        exact ⟨h1, by simpa using h2, by simp, by simpa using h4a, by simp,
          by simpa using h5a, by simp, by simpa using h6a, by simp⟩
      case some j =>
        exact ⟨h1, h2, h3, h4a, h4b, h5a, h5b, h6a, h6b⟩
    case check =>
      have hlA : lA = some true := h5b.mp (Or.inl rfl)
      subst hlA
      rcases h1 with hr | hr <;> subst hr
      · show Inv1 now ⟨some true, lB, [], rB, tA, .addStep⟩
        exact ⟨Or.inl rfl, by simpa using h2, by simp, by simpa using h4a,
          by simp, by simpa using h5a, by simp, fun _ => rfl, fun _ => rfl⟩
      · have hstep : step (pSame w now) ⟨some true, lB, [now], rB, tA, .check⟩
            true = ⟨none, lB, [now], rB, tA, .done false⟩ := by
          have hc : (1 : Nat) ≤ (prune (now - w) [now]).length := by
            rw [hpn]
            simp
          show (if (1 : Nat) ≤ (prune (now - w) [now]).length then
              (⟨none, lB, prune (now - w) [now], rB, tA, .done false⟩ : Sys)
            else ⟨some true, lB, prune (now - w) [now], rB, tA, .addStep⟩)
            = ⟨none, lB, [now], rB, tA, .done false⟩
          rw [if_pos hc, hpn]
        rw [hstep]
        refine ⟨Or.inr rfl, ?_, by simp, fun _ => rfl, fun _ => rfl,
          by simpa using h5a, by simp, ?_, by simp⟩
        · constructor
          · intro _; rfl
          · intro _
            rcases h2.mpr rfl with hc | hc
            · exact Or.inl (by simpa using hc)
            · exact absurd hc (by simp)
        · intro hc
          have := h5a.mp (Or.inr (by simpa using hc))
          simp at this
    case addStep =>
      have hlA : lA = some true := h5b.mp (Or.inr rfl)
      subst hlA
      have hrA : rA = [] := h6b rfl
      subst hrA
      show Inv1 now ⟨none, lB, [now], rB, tA, .done true⟩
      refine ⟨Or.inr rfl, ⟨fun _ => rfl, fun _ => Or.inr rfl⟩, ?_,
        fun _ => rfl, fun _ => rfl, by simpa using h5a, by simp, ?_, by simp⟩
      · intro hc
        have := h2.mp (Or.inl (by simpa using hc.1))
        simp at this
      · intro hc
        have := h5a.mp (Or.inr (by simpa using hc))
        simp at this
    case done r =>
      exact ⟨h1, h2, h3, h4a, h4b, h5a, h5b, h6a, h6b⟩

open RateLimit in
theorem step_ready_free (p : Params) (s : Sys) (i : Bool)
    (hT : s.taskOf i = .ready) (hL : s.lockOf (p.uid i) = none) :
    step p s i = (s.setLock (p.uid i) (some i)).setTask i .check := by
  simp only [step, hT, hL]

theorem step_ready_held (p : Params) (s : Sys) (i j : Bool)
    (hT : s.taskOf i = .ready) (hL : s.lockOf (p.uid i) = some j) :
    step p s i = s := by
  simp only [step, hT, hL]

open RateLimit in
theorem step_check (p : Params) (s : Sys) (i : Bool)
    (hT : s.taskOf i = .check) :
    step p s i =
      (if p.maxR ≤ (prune (p.tm i - p.w) (s.reqsOf (p.uid i))).length then
        ((s.setReqs (p.uid i)
            (prune (p.tm i - p.w) (s.reqsOf (p.uid i)))).setTask i
          (.done false)).setLock (p.uid i) none
      else
        (s.setReqs (p.uid i)
            (prune (p.tm i - p.w) (s.reqsOf (p.uid i)))).setTask i .addStep) := by
  simp only [step, hT]

theorem step_add (p : Params) (s : Sys) (i : Bool)
    (hT : s.taskOf i = .addStep) :
    step p s i =
      ((s.setReqs (p.uid i) (s.reqsOf (p.uid i) ++ [p.tm i])).setTask i
        (.done true)).setLock (p.uid i) none := by
  simp only [step, hT]

theorem step_done (p : Params) (s : Sys) (i r : Bool)
    (hT : s.taskOf i = .done r) : step p s i = s := by
  simp only [step, hT]

theorem lockOwn_init (p : Params) : LockOwn p init :=
  ⟨fun hc => absurd hc (by simp [init]), fun hc => absurd hc (by simp [init]),
   fun hc => absurd hc (by simp [init]), fun hc => absurd hc (by simp [init])⟩

open RateLimit in
theorem lockOwn_step (p : Params) (s : Sys) (i : Bool)
    (h : LockOwn p s) : LockOwn p (step p s i) := by
  obtain ⟨lA, lB, rA, rB, tA, tB⟩ := s
  obtain ⟨h1, h2, h3, h4⟩ := h
  cases i
  case false =>
    cases tA
    case ready =>
      cases hu : p.uid false
      case false =>
        cases lA
        case none =>
          rw [step_ready_free p ⟨none, lB, rA, rB, .ready, tB⟩ false rfl
            (by rw [hu]; rfl)]
          rw [hu]
          show LockOwn p ⟨some false, lB, rA, rB, .check, tB⟩
          exact ⟨fun _ => ⟨hu, Or.inl rfl⟩, fun hc => absurd hc (by simp),
            fun hc => absurd (h3 hc).2 (by simp), fun hc => h4 hc⟩
        case some j =>
          rw [step_ready_held p ⟨some j, lB, rA, rB, .ready, tB⟩ false j rfl
            (by rw [hu]; rfl)]
          exact ⟨h1, h2, h3, h4⟩
      case true =>
        cases lB
        case none =>
          rw [step_ready_free p ⟨lA, none, rA, rB, .ready, tB⟩ false rfl
            (by rw [hu]; rfl)]
          rw [hu]
          show LockOwn p ⟨lA, some false, rA, rB, .check, tB⟩
          exact ⟨fun hc => absurd (h1 hc).2 (by simp), fun hc => h2 hc,
            fun _ => ⟨hu, Or.inl rfl⟩, fun hc => absurd hc (by simp)⟩
        case some j =>
          rw [step_ready_held p ⟨lA, some j, rA, rB, .ready, tB⟩ false j rfl
            (by rw [hu]; rfl)]
          exact ⟨h1, h2, h3, h4⟩
    case check =>
      rw [step_check p ⟨lA, lB, rA, rB, .check, tB⟩ false rfl]
      cases hu : p.uid false
      case false =>
        show LockOwn p
          (if p.maxR ≤ (prune (p.tm false - p.w) rA).length then
            (⟨none, lB, prune (p.tm false - p.w) rA, rB, .done false, tB⟩ : Sys)
          else ⟨lA, lB, prune (p.tm false - p.w) rA, rB, .addStep, tB⟩)
        by_cases hlim : p.maxR ≤ (prune (p.tm false - p.w) rA).length
        · rw [if_pos hlim]
          exact ⟨fun hc => absurd hc (by simp), fun hc => absurd hc (by simp),
            fun hc => absurd (h3 hc).1 (by simp [hu]), fun hc => h4 hc⟩
        · rw [if_neg hlim]
          exact ⟨fun hc => ⟨(h1 hc).1, Or.inr rfl⟩, fun hc => h2 hc,
            fun hc => absurd (h3 hc).1 (by simp [hu]), fun hc => h4 hc⟩
      case true =>
        show LockOwn p
          (if p.maxR ≤ (prune (p.tm false - p.w) rB).length then
            (⟨lA, none, rA, prune (p.tm false - p.w) rB, .done false, tB⟩ : Sys)
          else ⟨lA, lB, rA, prune (p.tm false - p.w) rB, .addStep, tB⟩)
        by_cases hlim : p.maxR ≤ (prune (p.tm false - p.w) rB).length
        · rw [if_pos hlim]
          exact ⟨fun hc => absurd (h1 hc).1 (by simp [hu]), fun hc => h2 hc,
            fun hc => absurd hc (by simp), fun hc => absurd hc (by simp)⟩
        · rw [if_neg hlim]
          exact ⟨fun hc => absurd (h1 hc).1 (by simp [hu]), fun hc => h2 hc,
            fun hc => ⟨(h3 hc).1, Or.inr rfl⟩, fun hc => h4 hc⟩
    case addStep =>
      rw [step_add p ⟨lA, lB, rA, rB, .addStep, tB⟩ false rfl]
      cases hu : p.uid false
      case false =>
        show LockOwn p ⟨none, lB, rA ++ [p.tm false], rB, .done true, tB⟩
        exact ⟨fun hc => absurd hc (by simp), fun hc => absurd hc (by simp),
          fun hc => absurd (h3 hc).1 (by simp [hu]), fun hc => h4 hc⟩
      case true =>
        show LockOwn p ⟨lA, none, rA, rB ++ [p.tm false], .done true, tB⟩
        exact ⟨fun hc => absurd (h1 hc).1 (by simp [hu]), fun hc => h2 hc,
          fun hc => absurd hc (by simp), fun hc => absurd hc (by simp)⟩
    case done r =>
      rw [step_done p ⟨lA, lB, rA, rB, .done r, tB⟩ false r rfl]
      exact ⟨h1, h2, h3, h4⟩
  case true =>
    cases tB
    case ready =>
      cases hu : p.uid true
      case false =>
        cases lA
        case none =>
          rw [step_ready_free p ⟨none, lB, rA, rB, tA, .ready⟩ true rfl
            (by rw [hu]; rfl)]
          rw [hu]
          show LockOwn p ⟨some true, lB, rA, rB, tA, .check⟩
          exact ⟨fun hc => absurd hc (by simp), fun _ => ⟨hu, Or.inl rfl⟩,
            fun hc => h3 hc, fun hc => absurd (h4 hc).2 (by simp)⟩
        case some j =>
          rw [step_ready_held p ⟨some j, lB, rA, rB, tA, .ready⟩ true j rfl
            (by rw [hu]; rfl)]
          exact ⟨h1, h2, h3, h4⟩
      case true =>
        cases lB
        case none =>
          rw [step_ready_free p ⟨lA, none, rA, rB, tA, .ready⟩ true rfl
            (by rw [hu]; rfl)]
          rw [hu]
          show LockOwn p ⟨lA, some true, rA, rB, tA, .check⟩
          exact ⟨fun hc => h1 hc, fun hc => absurd (h2 hc).2 (by simp),
            fun hc => absurd hc (by simp), fun _ => ⟨hu, Or.inl rfl⟩⟩
        case some j =>
          rw [step_ready_held p ⟨lA, some j, rA, rB, tA, .ready⟩ true j rfl
            (by rw [hu]; rfl)]
          exact ⟨h1, h2, h3, h4⟩
    case check =>
      rw [step_check p ⟨lA, lB, rA, rB, tA, .check⟩ true rfl]
      cases hu : p.uid true
      case false =>
        show LockOwn p
          (if p.maxR ≤ (prune (p.tm true - p.w) rA).length then
            (⟨none, lB, prune (p.tm true - p.w) rA, rB, tA, .done false⟩ : Sys)
          else ⟨lA, lB, prune (p.tm true - p.w) rA, rB, tA, .addStep⟩)
        by_cases hlim : p.maxR ≤ (prune (p.tm true - p.w) rA).length
        · rw [if_pos hlim]
          exact ⟨fun hc => absurd hc (by simp), fun hc => absurd hc (by simp),
            fun hc => h3 hc, fun hc => absurd (h4 hc).1 (by simp [hu])⟩
        · rw [if_neg hlim]
          exact ⟨fun hc => h1 hc, fun hc => ⟨(h2 hc).1, Or.inr rfl⟩,
            fun hc => h3 hc, fun hc => absurd (h4 hc).1 (by simp [hu])⟩
      case true =>
        show LockOwn p
          (if p.maxR ≤ (prune (p.tm true - p.w) rB).length then
            (⟨lA, none, rA, prune (p.tm true - p.w) rB, tA, .done false⟩ : Sys)
          else ⟨lA, lB, rA, prune (p.tm true - p.w) rB, tA, .addStep⟩)
        by_cases hlim : p.maxR ≤ (prune (p.tm true - p.w) rB).length
        · rw [if_pos hlim]
          exact ⟨fun hc => h1 hc, fun hc => absurd (h2 hc).1 (by simp [hu]),
            fun hc => absurd hc (by simp), fun hc => absurd hc (by simp)⟩
        · rw [if_neg hlim]
          exact ⟨fun hc => h1 hc, fun hc => absurd (h2 hc).1 (by simp [hu]),
            fun hc => h3 hc, fun hc => ⟨(h4 hc).1, Or.inr rfl⟩⟩
    case addStep =>
      rw [step_add p ⟨lA, lB, rA, rB, tA, .addStep⟩ true rfl]
      cases hu : p.uid true
      case false =>
        show LockOwn p ⟨none, lB, rA ++ [p.tm true], rB, tA, .done true⟩
        exact ⟨fun hc => absurd hc (by simp), fun hc => absurd hc (by simp),
          fun hc => h3 hc, fun hc => absurd (h4 hc).1 (by simp [hu])⟩
      case true =>
        show LockOwn p ⟨lA, none, rA, rB ++ [p.tm true], tA, .done true⟩
        exact ⟨fun hc => h1 hc, fun hc => absurd (h2 hc).1 (by simp [hu]),
          fun hc => absurd hc (by simp), fun hc => absurd hc (by simp)⟩
    case done r =>
      rw [step_done p ⟨lA, lB, rA, rB, tA, .done r⟩ true r rfl]
      exact ⟨h1, h2, h3, h4⟩

theorem run_inv1 (w now : Int) (hw : 0 < w) :
    ∀ (sched : List Bool) (s : Sys), Inv1 now s →
      Inv1 now (run (pSame w now) sched s) := by
  intro sched
  induction sched with
  | nil => intro s h; exact h
  | cons i sched ih =>
    intro s h
    exact ih _ (inv1_step w now hw s i h)

theorem run_lockOwn (p : Params) :
    ∀ (sched : List Bool) (s : Sys), LockOwn p s →
      LockOwn p (run p sched s) := by
  intro sched
  induction sched with
  | nil => intro s h; exact h
  | cons i sched ih =>
    intro s h
    exact ih _ (lockOwn_step p s i h)

/-- C8: the per-user lock makes the two racing `check_user` critical sections
strictly serialized — with both tasks hitting the same user at the same
instant under a limit of one request on an empty window, every interleaving
in which both calls complete returns exactly one `True` and one `False`; and
when the two tasks target different users, no scheduled step is ever blocked
on the other task's lock. -/
theorem c8_atomic_check_and_admit :
    (∀ (w now : Int), 0 < w → ∀ (sched : List Bool) (r0 r1 : Bool),
        (run (pSame w now) sched init).taskA = .done r0 →
        (run (pSame w now) sched init).taskB = .done r1 →
        (r0 = true ∧ r1 = false) ∨ (r0 = false ∧ r1 = true))
    ∧ (∀ (p : Params), p.uid false ≠ p.uid true →
        ∀ (sched : List Bool) (i : Bool),
          ¬ blocked p (run p sched init) i) := by
  constructor
  · intro w now hw sched r0 r1 hA hB
    obtain ⟨h1, h2, h3, h4a, h4b, h5a, h5b, h6a, h6b⟩ :=
      run_inv1 w now hw sched init (inv1_init now)
    cases r0
    · cases r1
      · exfalso
        have hr := h4a hA
        rcases h2.mpr hr with hc | hc
        · rw [hA] at hc
          exact absurd hc (by simp)
        · rw [hB] at hc
          exact absurd hc (by simp)
      · right; exact ⟨rfl, rfl⟩
    · cases r1
      · left; exact ⟨rfl, rfl⟩
      · exact absurd ⟨hA, hB⟩ h3
  · intro p hdiff sched i
    obtain ⟨ho1, ho2, ho3, ho4⟩ := run_lockOwn p sched init (lockOwn_init p)
    rintro ⟨hready, j, hl, hji⟩
    cases hu : p.uid i
    · have hl' : (run p sched init).lockA = some j := by
        have hx := hl
        rw [hu] at hx
        exact hx
      cases i <;> cases j
      · exact hji rfl
      · exact hdiff (hu.trans ((ho2 hl').1).symm)
      · exact hdiff ((ho1 hl').1.trans hu.symm)
      · exact hji rfl
    · have hl' : (run p sched init).lockB = some j := by
        have hx := hl
        rw [hu] at hx
        exact hx
      cases i <;> cases j
      · exact hji rfl
      · exact hdiff (hu.trans ((ho4 hl').1).symm)
      · exact hdiff ((ho3 hl').1.trans hu.symm)
      · exact hji rfl

/-- Witness for C8: the schedule running task A to completion and then task B,
over the same user with limit one, yields `True` then `False`; and with the
identity user assignment a lone step of task A is never blocked. -/
theorem c8_witness :
    ((true = true ∧ false = false) ∨ (true = false ∧ false = true))
    ∧ ¬ blocked ⟨1, 1, fun i => i, fun _ => 0⟩
        (run ⟨1, 1, fun i => i, fun _ => 0⟩ [false] init) false := by
  constructor
  · exact c8_atomic_check_and_admit.1 1 0 (by norm_num)
      [false, false, false, true, true, true] true false (by decide) (by decide)
  · exact c8_atomic_check_and_admit.2 ⟨1, 1, fun i => i, fun _ => 0⟩
      (by decide) [false] false

end Conc

end BananaBot
